import Mathlib

/-!
Shallow embedding of the XML binding engine of the `atomtools` package
(src/atomtools/xml.py, atom.py, atompub.py, utils.py, tzinfo.py,
exceptions.py), together with theorems settling the specification claims
about it.

The source is Python 2.  Conventions of the embedding:
  * Python values that may be `None` become `Option`;
  * code that can raise runs in `Except PyError`;
  * element trees are modelled by the `Element` structure below, mirroring
    `xml.etree.ElementTree.Element` (qualified tag, ordered attribute
    mapping, ordered child list, direct text, tail text);
  * qualified names (`QName`, the string form is the braced text
    of ElementTree) are modelled as a (namespace URI, local name) pair;
    an unqualified name is represented with an empty namespace part.
-/

/-- A namespace-qualified name: ElementTree represents it as the text
braced-URI-then-local-name; equality of QNames (and of parsed tags) is
equality of that text, i.e. of the (URI, local name) pair. -/
structure QName where
  ns : String
  name : String
deriving DecidableEq, Repr

/-- An unqualified (plain) attribute or tag name, as ElementTree keeps it:
no namespace part. -/
def plainName (n : String) : QName := ⟨"", n⟩

/-- The Python exceptions that the embedded code can raise. -/
inductive PyError where
  | keyError (name : String)
  | parseError (msg : String)
  | incompleteObjectError (msg : String)
  | typeError (msg : String)
  | attributeError (msg : String)
  | nameError (msg : String)
deriving DecidableEq, Repr

/-- `xml.etree.ElementTree.Element`: qualified tag, ordered attribute
mapping, ordered list of children, optional direct text, optional tail
text (the text that follows the end tag of an element inside its parent). -/
inductive Element where
  | mk (tag : QName) (attrib : List (QName × String)) (children : List Element)
       (text : Option String) (tail : Option String)
deriving Repr

def Element.tag : Element → QName
  | .mk t _ _ _ _ => t

def Element.attrib : Element → List (QName × String)
  | .mk _ a _ _ _ => a

def Element.children : Element → List Element
  | .mk _ _ c _ _ => c

def Element.text : Element → Option String
  | .mk _ _ _ t _ => t

def Element.tail : Element → Option String
  | .mk _ _ _ _ t => t

def Element.withChildren : Element → List Element → Element
  | .mk t a _ tx tl, c => .mk t a c tx tl

/-- `element.attrib.get(key)`: lookup in the ordered attribute mapping. -/
def attribGet (attrs : List (QName × String)) (k : QName) : Option String :=
  (attrs.find? (fun p => p.fst == k)).map (fun p => p.snd)

/-- `element.attrib.get(key, default)`. -/
def attribGetD (attrs : List (QName × String)) (k : QName) (d : String) : String :=
  (attribGet attrs k).getD d

/-- `element.attrib[key] = value`: dict assignment keeps the position of an
existing key and appends a new one. -/
def attribSet (attrs : List (QName × String)) (k : QName) (v : String) :
    List (QName × String) :=
  if (attrs.find? (fun p => p.fst == k)).isSome then
    attrs.map (fun p => if p.fst == k then (k, v) else p)
  else
    attrs ++ [(k, v)]

/-- The characters stripped by the Python 2 `str.strip()`. -/
def isPySpace (c : Char) : Bool :=
  c = ' ' || c = '\t' || c = '\n' || c = '\r' || c = '\x0b' || c = '\x0c'

/-- Python `s.strip()`: remove leading and trailing whitespace. -/
def pyStrip (s : String) : String :=
  String.mk (((s.toList.dropWhile isPySpace).reverse.dropWhile isPySpace).reverse)

/-- Python `s.lower()` (the source only lowercases ASCII data). -/
def pyLower (s : String) : String :=
  String.mk (s.toList.map Char.toLower)

/-- Python truthiness of an optional string: `None` and `""` are falsy. -/
def pyTruthyStr : Option String → Bool
  | none => false
  | some s => s ≠ ""

/-- `int(s)` on a string of decimal digits (the only use in the source). -/
def pyInt (s : String) : Nat :=
  s.toList.foldl (fun a c => a * 10 + (c.toNat - 48)) 0

/-- The text form of a qualified name, as ElementTree prints it: the
namespace URI in braces followed by the local name (plain names print
bare).  Prefix generation and character escaping of the real serializer
are presentation concerns and are abstracted here. -/
def qnameText (q : QName) : String :=
  if q.ns = "" then q.name else "\x7b" ++ q.ns ++ "\x7d" ++ q.name

mutual

/-- `xml.etree.ElementTree.tostring(e)`: start tag with the attributes in
order, direct text, children in order (each followed by its tail), end
tag, and finally the tail of the element itself.  An element with no text and no
children is written self-closed, as ElementTree does. -/
def serializeElement : Element → String
  | .mk tag attrib children text tail =>
    let tagS := qnameText tag
    let attrS := String.join (attrib.map (fun p =>
        " " ++ qnameText p.fst ++ "=\"" ++ p.snd ++ "\""))
    let tailS := tail.getD ""
    if text.isNone && children.isEmpty then
      "<" ++ tagS ++ attrS ++ " />" ++ tailS
    else
      "<" ++ tagS ++ attrS ++ ">" ++ (text.getD "") ++
        serializeChildren children ++ "</" ++ tagS ++ ">" ++ tailS
termination_by structural e => e

/-- Concatenation of the serializations of a list of elements, in order. -/
def serializeChildren : List Element → String
  | [] => ""
  | c :: cs => serializeElement c ++ serializeChildren cs
termination_by structural cs => cs

end

/-- `utils.flatten_xml_content`: with children present, join the direct
text with the serialization of every child (in document order) and strip;
with no children, strip the direct text.  When the direct text is `None`
the source raises: `"".join([None, ...])` is a `TypeError`, and
`None.strip()` is an `AttributeError`. -/
def flatten_xml_content (element : Element) : Except PyError String :=
  if element.children.length > 0 then
    match element.text with
    | none => .error (.typeError "sequence item 0: expected string, NoneType found")
    | some t => .ok (pyStrip (t ++ serializeChildren element.children))
  else
    match element.text with
    | none => .error (.attributeError "NoneType object has no attribute strip")
    | some t => .ok (pyStrip t)

/-- `utils.wrap_xml_tree`: if the element has exactly one child already
tagged *tag*, return it.  Otherwise the source calls
`element.makeelement(tag)` with a single argument, which in Python 2
ElementTree is a `TypeError` (`makeelement` requires the attribute
mapping as well), so that branch raises. -/
def wrap_xml_tree (element : Element) (tag : QName) : Except PyError Element :=
  match element.children with
  | [c] =>
    if c.tag = tag then .ok c
    else .error (.typeError "makeelement takes exactly 3 arguments")
  | _ => .error (.typeError "makeelement takes exactly 3 arguments")

/-- `utils.create_text_xml`: append a child with the given tag whose text
is *text* when that is truthy. -/
def create_text_xml (text : Option String) (parent : Element) (tag : QName) :
    Element :=
  parent.withChildren (parent.children ++
    [.mk tag [] [] (if pyTruthyStr text then text else none) none])

/-- `xml.define_namespace`: registers a serialization prefix for the URI
(a process-wide, presentation-only side effect not modelled here) and
returns the URI. -/
def define_namespace (_pre url : String) : String := url

def xml_ns : String := define_namespace "xml" "http://www.w3.org/XML/1998/namespace"

def atom_ns : String := define_namespace "atom" "http://www.w3.org/2005/Atom"

def app_ns : String := define_namespace "app" "http://www.w3.org/2007/app"

/-- Modelled from the spec: `atomtools/xhtml.py` is part of this
repository but is not under `src/`; per the spec it only supplies
namespace registration, here the standard XHTML namespace URI that
`atom.py` imports as `xhtml_ns`. -/
def xhtml_ns : String := define_namespace "xhtml" "http://www.w3.org/1999/xhtml"

/-- The tzinfo values the source constructs (`tzinfo.TzInfoUTC`,
`tzinfo.TzInfoFixedOffset` with an offset in minutes east of UTC). -/
inductive Tz where
  | utc
  | fixedOffset (minutes : Int)
deriving DecidableEq, Repr

/-- Zero-padded two-digit rendering, Python `"%02d" % n`. -/
def pad2 (n : Nat) : String :=
  if n < 10 then "0" ++ toString n else toString n

/-- Zero-padded four-digit rendering, Python `"%04d" % n`. -/
def pad4 (n : Nat) : String :=
  if n < 10 then "000" ++ toString n
  else if n < 100 then "00" ++ toString n
  else if n < 1000 then "0" ++ toString n
  else toString n

/-- `tzname`: `TzInfoUTC.tzname` returns `"Z"`;
`TzInfoFixedOffset.tzname` returns the name computed in `__init__` as
sign, `"%02d" % (abs(offset)/60.)` and `"%02d" % (abs(offset) % 60)`. -/
def Tz.tzname : Tz → String
  | .utc => "Z"
  | .fixedOffset m =>
    (if m < 0 then "-" else "+") ++ pad2 (m.natAbs / 60) ++ ":" ++ pad2 (m.natAbs % 60)

/-- A `datetime.datetime` as the source uses it: calendar fields,
microseconds and an optional tzinfo. -/
structure PyDatetime where
  year : Nat
  month : Nat
  day : Nat
  hour : Nat
  minute : Nat
  second : Nat
  microsecond : Nat
  tz : Option Tz
deriving DecidableEq, Repr

/-- The groups of `AtomDate.date_re` on a successful match:
`(\d\d\d\d)-(\d\d)-(\d\d)T(\d\d):(\d\d):(\d\d)(\.\d+)?(Z|[-+](\d\d):(\d\d))`. -/
structure DateGroups where
  year : String
  mon : String
  day : String
  hour : String
  minute : String
  sec : String
  frac : Option String
  offNeg : Bool
  offhour : Option String
  offmin : Option String
deriving DecidableEq, Repr

/-- Take exactly *n* decimal digits from the front of the character list. -/
def takeDigits : Nat → List Char → Option (String × List Char)
  | 0, cs => some ("", cs)
  | n + 1, c :: cs =>
    if c.isDigit then
      (takeDigits n cs).map (fun p => (String.mk [c] ++ p.fst, p.snd))
    else none
  | _ + 1, [] => none

/-- Expect a specific literal character at the front. -/
def expectChar (c : Char) : List Char → Option (List Char)
  | d :: cs => if d = c then some cs else none
  | [] => none

/-- `AtomDate.date_re.match(text)`: a direct implementation of the
anchored-at-the-start regular expression above.  The fraction group is
greedy over the digits; since a digit can never begin the offset
alternative, greedy matching here is equivalent to the backtracking
regex.  `re.match` tolerates trailing characters after the match. -/
def dateReMatch (s : String) : Option DateGroups :=
  match takeDigits 4 s.toList with
  | none => none
  | some (year, r) =>
  match expectChar '-' r with
  | none => none
  | some r =>
  match takeDigits 2 r with
  | none => none
  | some (mon, r) =>
  match expectChar '-' r with
  | none => none
  | some r =>
  match takeDigits 2 r with
  | none => none
  | some (day, r) =>
  match expectChar 'T' r with
  | none => none
  | some r =>
  match takeDigits 2 r with
  | none => none
  | some (hour, r) =>
  match expectChar ':' r with
  | none => none
  | some r =>
  match takeDigits 2 r with
  | none => none
  | some (minute, r) =>
  match expectChar ':' r with
  | none => none
  | some r =>
  match takeDigits 2 r with
  | none => none
  | some (sec, r) =>
  let fracStep : Option (Option String × List Char) :=
    match r with
    | '.' :: r2 =>
      let digits := r2.takeWhile Char.isDigit
      if digits.isEmpty then none
      else some (some (String.mk ('.' :: digits)), r2.dropWhile Char.isDigit)
    | _ => some (none, r)
  match fracStep with
  | none => none
  | some (frac, r) =>
  match r with
  | 'Z' :: _ => some ⟨year, mon, day, hour, minute, sec, frac, false, none, none⟩
  | c :: r2 =>
    if c = '+' || c = '-' then
      match takeDigits 2 r2 with
      | none => none
      | some (oh, r3) =>
      match expectChar ':' r3 with
      | none => none
      | some r4 =>
      match takeDigits 2 r4 with
      | none => none
      | some (om, _) =>
        some ⟨year, mon, day, hour, minute, sec, frac, c = '-', some oh, some om⟩
    else none
  | [] => none

/-- `int(float(frac) * 1000000)` idealized: the first six fractional
digits, padded with zeros.  The IEEE-754 rounding of the source (which
can be off by one for some fractions) is not modelled; no theorem below
evaluates a nonzero fraction. -/
def fracMicro (frac : String) : Nat :=
  pyInt (String.mk (((frac.toList.drop 1).take 6) ++
    List.replicate (6 - (frac.toList.length - 1)) '0'))

/-- `AtomCommon.from_xml`: collect the `xml:base` attribute. -/
def atomCommonBase (element : Element) : Option String :=
  attribGet element.attrib ⟨xml_ns, "base"⟩

/-- `AtomCommon.from_xml`: collect the `xml:lang` attribute. -/
def atomCommonLang (element : Element) : Option String :=
  attribGet element.attrib ⟨xml_ns, "lang"⟩

/-- `AtomCommon.prepare_xml`: write `xml:base` and `xml:lang` when set. -/
def atomCommonPrepareXml (base lang : Option String) : Element → Element
  | .mk tag attrib children text tail =>
    let attrib := match base with
      | some b => attribSet attrib ⟨xml_ns, "base"⟩ b
      | none => attrib
    let attrib := match lang with
      | some l => attribSet attrib ⟨xml_ns, "lang"⟩ l
      | none => attrib
    .mk tag attrib children text tail

/-- `atom.AtomLink`: the fields of the atom:link construct. -/
structure AtomLink where
  href : Option String := none
  rel : Option String := none
  type : Option String := none
  hreflang : Option String := none
  title : Option String := none
  length : Option String := none
  base : Option String := none
  lang : Option String := none
deriving DecidableEq, Repr

/-- `AtomLink.from_xml`: read the six link attributes plus the common
pair; every absent attribute degrades to `None`. -/
def atomLinkFromXml (element : Element) : AtomLink :=
  { href := attribGet element.attrib (plainName "href")
    rel := attribGet element.attrib (plainName "rel")
    type := attribGet element.attrib (plainName "type")
    hreflang := attribGet element.attrib (plainName "hreflang")
    title := attribGet element.attrib (plainName "title")
    length := attribGet element.attrib (plainName "length")
    base := atomCommonBase element
    lang := atomCommonLang element }

/-- `AtomLink.prepare_xml`: `href` is written unconditionally (empty when
unset), the rest only when not `None`. -/
def atomLinkPrepareXml (l : AtomLink) (element : Element) : Element :=
  let e := atomCommonPrepareXml l.base l.lang element
  let setOpt := fun (e : Element) (k : String) (v : Option String) =>
    match v with
    | some s => Element.mk e.tag (attribSet e.attrib (plainName k) s)
        e.children e.text e.tail
    | none => e
  let e := Element.mk e.tag
    (attribSet e.attrib (plainName "href") (l.href.getD "")) e.children e.text e.tail
  let e := setOpt e "rel" l.rel
  let e := setOpt e "type" l.type
  let e := setOpt e "hreflang" l.hreflang
  let e := setOpt e "title" l.title
  setOpt e "length" l.length

/-- `AtomMeta.get_link`: the href of the first link whose `rel` equals
the argument, explicitly returning `None` when the list is exhausted. -/
def get_link : List AtomLink → Option String → Option String
  | [], _ => none
  | l :: ls, rel => if l.rel = rel then l.href else get_link ls rel

/-- `AtomMeta.get_links`: the hrefs of all links whose `rel` equals the
argument, in original order. -/
def get_links (links : List AtomLink) (rel : Option String) : List (Option String) :=
  (links.filter (fun l => l.rel = rel)).map (fun l => l.href)

/-- `AtomMeta.get_first_link`: like `get_link` but the source falls off
the end of the loop, implicitly returning `None`. -/
def get_first_link : List AtomLink → Option String → Option String
  | [], _ => none
  | l :: ls, rel => if l.rel = rel then l.href else get_first_link ls rel

/-- `AtomMeta.remove_links`: keep only the links whose `rel` differs. -/
def remove_links (links : List AtomLink) (rel : Option String) : List AtomLink :=
  links.filter (fun l => ¬ (l.rel = rel))

/-- `AtomMeta.replace_link` (no extra keyword arguments): drop every link
with this `rel`, then append `AtomLink(href=href, rel=rel)`. -/
def replace_link (links : List AtomLink) (rel href : Option String) : List AtomLink :=
  remove_links links rel ++ [{ href := href, rel := rel }]

/-- `atom.AtomPerson`: the fields of a person construct. -/
structure AtomPerson where
  name : Option String := none
  uri : Option String := none
  email : Option String := none
  base : Option String := none
  lang : Option String := none
deriving DecidableEq, Repr

/-- `AtomPerson.from_xml`: walk the children in order; an atom:name,
atom:uri or atom:email child stores its text (later occurrences
overwrite earlier ones, as dict assignment does). -/
def atomPersonFromXml (element : Element) : AtomPerson :=
  let fields := element.children.foldl
    (fun (acc : Option String × Option String × Option String) sub =>
      if sub.tag = ⟨atom_ns, "name"⟩ then (sub.text, acc.2.1, acc.2.2)
      else if sub.tag = ⟨atom_ns, "uri"⟩ then (acc.1, sub.text, acc.2.2)
      else if sub.tag = ⟨atom_ns, "email"⟩ then (acc.1, acc.2.1, sub.text)
      else acc)
    (none, none, none)
  { name := fields.1, uri := fields.2.1, email := fields.2.2
    base := atomCommonBase element, lang := atomCommonLang element }

/-- `AtomPerson.prepare_xml`: atom:name is always created; atom:uri and
atom:email only when truthy. -/
def atomPersonPrepareXml (p : AtomPerson) (element : Element) : Element :=
  let e := atomCommonPrepareXml p.base p.lang element
  let e := create_text_xml p.name e ⟨atom_ns, "name"⟩
  let e := if pyTruthyStr p.uri then create_text_xml p.uri e ⟨atom_ns, "uri"⟩ else e
  if pyTruthyStr p.email then create_text_xml p.email e ⟨atom_ns, "email"⟩ else e

/-- `atom.AtomCategory`. -/
structure AtomCategory where
  term : Option String := none
  scheme : Option String := none
  label : Option String := none
  base : Option String := none
  lang : Option String := none
deriving DecidableEq, Repr

/-- `AtomCategory.from_xml`. -/
def atomCategoryFromXml (element : Element) : AtomCategory :=
  { term := attribGet element.attrib (plainName "term")
    scheme := attribGet element.attrib (plainName "scheme")
    label := attribGet element.attrib (plainName "label")
    base := atomCommonBase element, lang := atomCommonLang element }

/-- `AtomCategory.prepare_xml`: `term` falls back to the empty string
(`self.term or ""`); `scheme` and `label` are written when truthy. -/
def atomCategoryPrepareXml (c : AtomCategory) (element : Element) : Element :=
  let e := atomCommonPrepareXml c.base c.lang element
  let term := if pyTruthyStr c.term then c.term.getD "" else ""
  let e := Element.mk e.tag (attribSet e.attrib (plainName "term") term)
    e.children e.text e.tail
  let e := if pyTruthyStr c.scheme then
      Element.mk e.tag (attribSet e.attrib (plainName "scheme") (c.scheme.getD ""))
        e.children e.text e.tail
    else e
  if pyTruthyStr c.label then
    Element.mk e.tag (attribSet e.attrib (plainName "label") (c.label.getD ""))
      e.children e.text e.tail
  else e

/-- `atom.AtomGenerator`. -/
structure AtomGenerator where
  text : Option String := none
  uri : Option String := none
  version : Option String := none
  base : Option String := none
  lang : Option String := none
deriving DecidableEq, Repr

/-- `AtomGenerator.from_xml`: the flattened content plus two attributes
(flattening raises when the direct text is missing, see
`flatten_xml_content`). -/
def atomGeneratorFromXml (element : Element) : Except PyError AtomGenerator := do
  let text ← flatten_xml_content element
  pure { text := some text
         uri := attribGet element.attrib (plainName "uri")
         version := attribGet element.attrib (plainName "version")
         base := atomCommonBase element, lang := atomCommonLang element }

/-- `AtomGenerator.prepare_xml`: the text is assigned unconditionally;
`uri` and `version` when truthy. -/
def atomGeneratorPrepareXml (g : AtomGenerator) (element : Element) : Element :=
  let e := atomCommonPrepareXml g.base g.lang element
  let e := Element.mk e.tag e.attrib e.children g.text e.tail
  let e := if pyTruthyStr g.uri then
      Element.mk e.tag (attribSet e.attrib (plainName "uri") (g.uri.getD ""))
        e.children e.text e.tail
    else e
  if pyTruthyStr g.version then
    Element.mk e.tag (attribSet e.attrib (plainName "version") (g.version.getD ""))
      e.children e.text e.tail
  else e

/-- `atom.AtomDate`: a date construct. -/
structure AtomDate where
  datetime : Option PyDatetime := none
  base : Option String := none
  lang : Option String := none
deriving DecidableEq, Repr

/-- `AtomDate.from_xml`: `date_re.match(element.text)` — a `TypeError`
when the text is `None` (Python 2 `re.match` requires a string).  On a
match, the timezone is rebuilt as
`TzInfoFixedOffset(int(offhour) * 60 + int(offmin))`: the sign of the
offset group is never consulted.  On no match the datetime degrades to
`None`. -/
def atomDateFromXml (element : Element) : Except PyError AtomDate := do
  match element.text with
  | none => .error (.typeError "expected string or buffer")
  | some t =>
    let dt : Option PyDatetime :=
      match dateReMatch t with
      | none => none
      | some g =>
        let tz : Tz := match g.offhour, g.offmin with
          | some oh, some om => .fixedOffset (pyInt oh * 60 + pyInt om)
          | _, _ => .utc
        let msec : Nat := match g.frac with
          | some f => fracMicro f
          | none => 0
        some { year := pyInt g.year, month := pyInt g.mon, day := pyInt g.day
               hour := pyInt g.hour, minute := pyInt g.minute,
               second := pyInt g.sec, microsecond := msec, tz := some tz }
    pure { datetime := dt
           base := atomCommonBase element, lang := atomCommonLang element }

/-- `"%06i" % microsecond`, then `.rstrip("0")`, with the leading dot. -/
def fracString (microsecond : Nat) : String :=
  let six := if microsecond < 10 then "00000" ++ toString microsecond
    else if microsecond < 100 then "0000" ++ toString microsecond
    else if microsecond < 1000 then "000" ++ toString microsecond
    else if microsecond < 10000 then "00" ++ toString microsecond
    else if microsecond < 100000 then "0" ++ toString microsecond
    else toString microsecond
  "." ++ String.mk ((six.toList.reverse.dropWhile (fun c => c = '0')).reverse)

/-- `AtomDate.prepare_xml`: raises the incomplete-object error when the
datetime is unset, then writes the common attributes and formats the
timestamp (`Z` for a naive datetime, otherwise the tzname).  The
stray debugging `print` of the source is output-only and not
modelled. -/
def atomDatePrepareXml (d : AtomDate) (element : Element) : Except PyError Element :=
  match d.datetime with
  | none => .error (.incompleteObjectError "datetime must not be None")
  | some dt =>
    let e := atomCommonPrepareXml d.base d.lang element
    let frac := if dt.microsecond ≠ 0 then fracString dt.microsecond else ""
    let tzS := match dt.tz with
      | some tz => tz.tzname
      | none => "Z"
    let text := pad4 dt.year ++ "-" ++ pad2 dt.month ++ "-" ++ pad2 dt.day ++ "T"
      ++ pad2 dt.hour ++ ":" ++ pad2 dt.minute ++ ":" ++ pad2 dt.second
      ++ frac ++ tzS
    .ok (Element.mk e.tag e.attrib e.children (some text) e.tail)

/-- The value of an `AtomText.text` field: a flattened string for the
`text`/`html` types, an element subtree for `xhtml`. -/
inductive TextContent where
  | str (s : String)
  | elem (e : Element)
deriving Repr

/-- `atom.AtomText`: a text construct. -/
structure AtomText where
  type : Option String := some "text"
  text : Option TextContent := none
  base : Option String := none
  lang : Option String := none
deriving Repr

/-- `AtomText.from_xml`: branch on the normalized `type` attribute.
`text`/`html` flatten the content into one string; `xhtml` wraps the
content — against `QName(xhtml_ns, "dvi")`, reproducing the source typo
for `"div"`.  Any other type leaves the local variable `text` unbound,
an `UnboundLocalError` (a `NameError` subclass) at the constructor
call. -/
def atomTextFromXml (element : Element) : Except PyError AtomText := do
  let type := pyStrip (pyLower (attribGetD element.attrib (plainName "type") "text"))
  let text : Option TextContent ←
    if type = "text" || type = "html" then do
      let s ← flatten_xml_content element
      pure (some (.str s))
    else if type = "xhtml" then do
      let e ← wrap_xml_tree element ⟨xhtml_ns, "dvi"⟩
      pure (some (.elem e))
    else
      .error (.nameError "local variable text referenced before assignment")
  pure { type := some type, text := text
         base := atomCommonBase element, lang := atomCommonLang element }

/-- `AtomText.prepare_xml`: write the `type` attribute when set; for the
`xhtml` type append the content subtree (the source appends a bare
`QName` when the text is unset — represented here by an empty element
with that tag — and would append a bare string for string content,
which only fails later in Python; that unreachable corner is modelled as
the eventual serializer `TypeError`).  For other types assign the text
when truthy (an Element stored there is truthy only when it has
children, and its Python 2 `unicode()` is its repr, modelled with the
address elided). -/
def atomTextPrepareXml (t : AtomText) (element : Element) : Except PyError Element := do
  let e := atomCommonPrepareXml t.base t.lang element
  let e := match t.type with
    | some ty => Element.mk e.tag (attribSet e.attrib (plainName "type") ty)
        e.children e.text e.tail
    | none => e
  match t.type with
  | some ty =>
    if pyLower ty = "xhtml" then
      match t.text with
      | none => .ok (e.withChildren (e.children ++ [.mk ⟨xhtml_ns, "div"⟩ [] [] none none]))
      | some (.elem c) => .ok (e.withChildren (e.children ++ [c]))
      | some (.str _) => .error (.typeError "cannot serialize string appended as child")
    else
      match t.text with
      | some (.str s) =>
        if s ≠ "" then .ok (Element.mk e.tag e.attrib e.children (some s) e.tail)
        else .ok e
      | some (.elem c) =>
        if c.children.isEmpty then .ok e
        else .ok (Element.mk e.tag e.attrib e.children
          (some ("<Element " ++ qnameText c.tag ++ ">")) e.tail)
      | none => .ok e
  | none =>
    match t.text with
    | some (.str s) =>
      if s ≠ "" then .ok (Element.mk e.tag e.attrib e.children (some s) e.tail)
      else .ok e
    | some (.elem c) =>
      if c.children.isEmpty then .ok e
      else .ok (Element.mk e.tag e.attrib e.children
        (some ("<Element " ++ qnameText c.tag ++ ">")) e.tail)
    | none => .ok e

/-- The value of an `AtomContent.content` field: a (possibly binary)
string or an element subtree. -/
inductive ContentVal where
  | str (s : String)
  | elem (e : Element)
deriving Repr

/-- Python 2 `unicode(x)` for the values stored in a content field:
`None` prints as `"None"`, strings are themselves, an Element gives its
repr (modelled with the address elided). -/
def unicodeContent : Option ContentVal → String
  | none => "None"
  | some (.str s) => s
  | some (.elem e) => "<Element " ++ qnameText e.tag ++ ">"

/-- Modelled from the spec: the excluded binary-codec collaborator (§6)
providing base64 encoding of opaque byte payloads; abstracted as an
injective tagging of the payload (no theorem evaluates it). -/
def b64encode (s : String) : String := "base64:" ++ s

/-- The XML media types special-cased by `AtomContent`. -/
def xmlMediaTypes : List String :=
  ["text/xml", "application/xml", "text/xml-external-parsed-entity",
   "application/xml-external-parsed-entity", "application/xml-dtd"]

/-- `atom.AtomContent`. -/
structure AtomContent where
  type : Option String := none
  src : Option String := none
  content : Option ContentVal := none
  base : Option String := none
  lang : Option String := none
deriving Repr

/-- `AtomContent.prepare_xml`: the `src` branch reads the bare name
`src` (a `NameError` in the source); the XML-media branch tests
`hasattr(self.text, "create_xml")`, which is always false because
`AtomContent` has no `text` attribute, then reads `self.content.tag`
(an `AttributeError` unless the content is an element); the fallback
branch base64-encodes the content (`TypeError` when it is `None` or an
element). -/
def atomContentPrepareXml (c : AtomContent) (element : Element) : Except PyError Element :=
  let e := atomCommonPrepareXml c.base c.lang element
  let e := if pyTruthyStr c.type then
      Element.mk e.tag (attribSet e.attrib (plainName "type") (c.type.getD ""))
        e.children e.text e.tail
    else e
  if pyTruthyStr c.src then
    .error (.nameError "global name src is not defined")
  else if c.type = none || c.type = some "text" || c.type = some "html" then
    .ok (Element.mk e.tag e.attrib e.children (some (unicodeContent c.content)) e.tail)
  else if (c.type.getD "") ∈ xmlMediaTypes || (c.type.getD "") = "xhtml"
      || (c.type.getD "").endsWith "+xml" || (c.type.getD "").endsWith "/xml" then
    match c.content with
    | some (.elem el) =>
      if el.tag = ⟨atom_ns, "content"⟩ then
        .ok (Element.mk e.tag e.attrib (e.children ++ el.children) el.text e.tail)
      else
        .ok (e.withChildren (e.children ++ [el]))
    | some (.str _) => .error (.attributeError "str object has no attribute tag")
    | none => .error (.attributeError "NoneType object has no attribute tag")
  else if (c.type.getD "").startsWith "text/" then
    .ok (Element.mk e.tag e.attrib e.children (some (unicodeContent c.content)) e.tail)
  else
    match c.content with
    | some (.str s) => .ok (Element.mk e.tag e.attrib e.children (some (b64encode s)) e.tail)
    | _ => .error (.typeError "b64encode argument is not a string")

/-- `XMLObject.create_xml` for a child whose `prepare_xml` can raise:
append a fresh element with the given tag, then prepare it. -/
def createChildXml (prep : Element → Except PyError Element) (parent : Element)
    (tag : QName) : Except PyError Element := do
  let child ← prep (.mk tag [] [] none none)
  pure (parent.withChildren (parent.children ++ [child]))

/-- `XMLObject.create_xml` for a child whose `prepare_xml` cannot raise. -/
def createChildXmlP (prep : Element → Element) (parent : Element)
    (tag : QName) : Element :=
  parent.withChildren (parent.children ++ [prep (.mk tag [] [] none none)])

/-- `atom.AtomMeta`: the metadata shared by atom:source, atom:entry and
atom:feed (the `rights=()` constructor default is falsy, like `None`;
both are modelled as `none`). -/
structure AtomMeta where
  authors : List AtomPerson := []
  categories : List AtomCategory := []
  contributors : List AtomPerson := []
  id : Option String := none
  links : List AtomLink := []
  rights : Option AtomText := none
  title : Option AtomText := none
  updated : Option AtomDate := none
  base : Option String := none
  lang : Option String := none
deriving Repr

/-- `AtomMeta.prepare_xml`: the common attributes, then authors,
categories, contributors, id, links, rights, title and updated, in
source order, each encoded as a child element. -/
def atomMetaPrepareXml (m : AtomMeta) (element : Element) : Except PyError Element := do
  let e := atomCommonPrepareXml m.base m.lang element
  let e := m.authors.foldl
    (fun e a => createChildXmlP (atomPersonPrepareXml a) e ⟨atom_ns, "author"⟩) e
  let e := m.categories.foldl
    (fun e c => createChildXmlP (atomCategoryPrepareXml c) e ⟨atom_ns, "category"⟩) e
  let e := m.contributors.foldl
    (fun e a => createChildXmlP (atomPersonPrepareXml a) e ⟨atom_ns, "contributor"⟩) e
  let e := match m.id with
    | some i => create_text_xml (some i) e ⟨atom_ns, "id"⟩
    | none => e
  let e := m.links.foldl
    (fun e l => createChildXmlP (atomLinkPrepareXml l) e ⟨atom_ns, "link"⟩) e
  let e ← match m.rights with
    | some r => createChildXml (atomTextPrepareXml r) e ⟨atom_ns, "rights"⟩
    | none => pure e
  let e ← match m.title with
    | some t => createChildXml (atomTextPrepareXml t) e ⟨atom_ns, "title"⟩
    | none => pure e
  match m.updated with
  | some u => createChildXml (atomDatePrepareXml u) e ⟨atom_ns, "updated"⟩
  | none => pure e

/-- `atom.AtomSource`. -/
structure AtomSource extends AtomMeta where
  generator : Option AtomGenerator := none
  icon : Option String := none
  logo : Option String := none
  subtitle : Option AtomText := none
deriving Repr

/-- `AtomSource.prepare_xml`: the metadata, then generator, icon, logo
and subtitle. -/
def atomSourcePrepareXml (s : AtomSource) (element : Element) : Except PyError Element := do
  let e ← atomMetaPrepareXml s.toAtomMeta element
  let e := match s.generator with
    | some g => createChildXmlP (atomGeneratorPrepareXml g) e ⟨atom_ns, "generator"⟩
    | none => e
  let e := match s.icon with
    | some i => create_text_xml (some i) e ⟨atom_ns, "icon"⟩
    | none => e
  let e := match s.logo with
    | some l => create_text_xml (some l) e ⟨atom_ns, "logo"⟩
    | none => e
  match s.subtitle with
  | some t => createChildXml (atomTextPrepareXml t) e ⟨atom_ns, "subtitle"⟩
  | none => pure e

/-- `atom.AtomEntry`. -/
structure AtomEntry extends AtomMeta where
  content : Option AtomContent := none
  published : Option AtomDate := none
  source : Option AtomSource := none
  summary : Option AtomText := none
deriving Repr

/-- `AtomEntry.prepare_xml`: the metadata, then content, published,
source and summary — with no required-field check of its own. -/
def atomEntryPrepareXml (en : AtomEntry) (element : Element) : Except PyError Element := do
  let e ← atomMetaPrepareXml en.toAtomMeta element
  let e ← match en.content with
    | some c => createChildXml (atomContentPrepareXml c) e ⟨atom_ns, "content"⟩
    | none => pure e
  let e ← match en.published with
    | some p => createChildXml (atomDatePrepareXml p) e ⟨atom_ns, "published"⟩
    | none => pure e
  let e ← match en.source with
    | some s => createChildXml (atomSourcePrepareXml s) e ⟨atom_ns, "source"⟩
    | none => pure e
  match en.summary with
  | some t => createChildXml (atomTextPrepareXml t) e ⟨atom_ns, "summary"⟩
  | none => pure e

/-- `atom.AtomFeed`. -/
structure AtomFeed extends AtomSource where
  entries : List AtomEntry := []
deriving Repr

/-- `AtomFeed.prepare_xml`: everything of `AtomSource`, then the entries
— with no required-field check anywhere in the chain. -/
def atomFeedPrepareXml (f : AtomFeed) (element : Element) : Except PyError Element := do
  let e ← atomSourcePrepareXml f.toAtomSource element
  f.entries.foldlM
    (fun e en => createChildXml (atomEntryPrepareXml en) e ⟨atom_ns, "entry"⟩) e

/-- `atompub.AppAccept`. -/
structure AppAccept where
  media_range : Option String := none
  base : Option String := none
  lang : Option String := none
deriving DecidableEq, Repr

/-- `AppAccept.prepare_xml`. -/
def appAcceptPrepareXml (a : AppAccept) (element : Element) : Element :=
  let e := atomCommonPrepareXml a.base a.lang element
  match a.media_range with
  | some m => Element.mk e.tag e.attrib e.children (some m) e.tail
  | none => e

/-- `atompub.AppCategories`. -/
structure AppCategories where
  fixed : Bool := false
  scheme : Option String := none
  href : Option String := none
  categories : List AtomCategory := []
  base : Option String := none
  lang : Option String := none
deriving DecidableEq, Repr

/-- `AppCategories.prepare_xml`: with an `href` only that attribute is
written; otherwise, after the optional `fixed` flag, the source reads
`self.schema` — an attribute that does not exist (the field is named
`scheme`) — so that branch raises an `AttributeError` before the
category children are written. -/
def appCategoriesPrepareXml (c : AppCategories) (element : Element) : Except PyError Element :=
  let e := atomCommonPrepareXml c.base c.lang element
  match c.href with
  | some h =>
    .ok (Element.mk e.tag (attribSet e.attrib (plainName "href") h) e.children e.text e.tail)
  | none =>
    let _e := if c.fixed then
        Element.mk e.tag (attribSet e.attrib (plainName "fixed") "yes") e.children e.text e.tail
      else e
    .error (.attributeError "AppCategories object has no attribute schema")

/-- `atompub.AppCollection`. -/
structure AppCollection where
  href : Option String := none
  title : Option AtomText := none
  accept : List AppAccept := []
  categories : List AppCategories := []
  base : Option String := none
  lang : Option String := none
deriving Repr

/-- `AppCollection.prepare_xml`: the required-field checks for `href`
and `title` run first, before the parent is delegated to and before any
attribute or child is written; only then are the attribute, the title
child and the accept/categories children produced.  (The raise
statement names `IncompleteObjectError`; `atompub.py` never imports
that name, an import-wiring slip below the level of
abstraction — raises are modelled by the exception class the statement
names.) -/
def appCollectionPrepareXml (c : AppCollection) (element : Element) : Except PyError Element := do
  match c.href with
  | none => .error (.incompleteObjectError "href is required")
  | some h =>
    match c.title with
    | none => .error (.incompleteObjectError "title is required")
    | some t =>
      let e := atomCommonPrepareXml c.base c.lang element
      let e := Element.mk e.tag (attribSet e.attrib (plainName "href") h)
        e.children e.text e.tail
      let e ← createChildXml (atomTextPrepareXml t) e ⟨atom_ns, "title"⟩
      let e := c.accept.foldl
        (fun e a => createChildXmlP (appAcceptPrepareXml a) e ⟨app_ns, "accept"⟩) e
      c.categories.foldlM
        (fun e cat => createChildXml (appCategoriesPrepareXml cat) e ⟨app_ns, "categories"⟩) e

/-- Identifiers for the decoder functions that the inner dispatch tables
of the vocabulary classes name (each constructor stands for the
`from_xml` class method of the class of the same name). -/
inductive DecoderId where
  | atomPerson
  | atomCategory
  | atomText
  | atomDate
  | atomLink
  | atomGenerator
  | atomContent
  | atomSource
  | atomEntry
  | appAccept
  | appCategories
  | appCollection
  | appWorkspace
  | appSource
  | appEntry
deriving DecidableEq, Repr

/-- The own `inner_factory` dictionary of one class: an ordered association
list from inner-object names to decoder functions. -/
def InnerFactory := List (String × DecoderId)

/-- Dictionary lookup in one `inner_factory`. -/
def innerFactoryLookup (t : InnerFactory) (name : String) : Option DecoderId :=
  (List.find? (fun p => p.fst == name) t).map (fun p => p.snd)

/-- `AtomMeta.inner_factory`. -/
def atomMetaInnerFactory : InnerFactory :=
  [("author", .atomPerson), ("category", .atomCategory),
   ("contributor", .atomPerson), ("link", .atomLink),
   ("rights", .atomText), ("title", .atomText), ("updated", .atomDate)]

/-- `AtomSource.inner_factory`. -/
def atomSourceInnerFactory : InnerFactory :=
  [("generator", .atomGenerator), ("subtitle", .atomText)]

/-- `AtomEntry.inner_factory`. -/
def atomEntryInnerFactory : InnerFactory :=
  [("content", .atomContent), ("published", .atomDate),
   ("source", .atomSource), ("summary", .atomText)]

/-- `AtomFeed.inner_factory`. -/
def atomFeedInnerFactory : InnerFactory :=
  [("entry", .atomEntry)]

/-- `AppEntry.inner_factory`. -/
def appEntryInnerFactory : InnerFactory :=
  [("source", .appSource)]

/-- `AppFeed.inner_factory`. -/
def appFeedInnerFactory : InnerFactory :=
  [("entry", .appEntry), ("collection", .appCollection)]

/-- The method resolution order of `AtomFeed` as the list of each
own `inner_factory` dictionary of each class: AtomFeed, AtomSource, AtomMeta,
then AtomCommon and XMLObject (which define none — an absent dictionary
and an empty one behave identically under lookup). -/
def atomFeedMRO : List InnerFactory :=
  [atomFeedInnerFactory, atomSourceInnerFactory, atomMetaInnerFactory, [], []]

/-- The method resolution order of `AppFeed`: its own dictionary in
front of the chain of AtomFeed. -/
def appFeedMRO : List InnerFactory :=
  appFeedInnerFactory :: atomFeedMRO

/-- `XMLObject.inner_from_xml`, dispatch part: walk `cls.__mro__` from
the most derived class, returning the entry of the first own
`inner_factory` that contains *name*; raise `KeyError(name)` when the
chain is exhausted. -/
def inner_from_xml : List InnerFactory → String → Except PyError DecoderId
  | [], name => .error (.keyError name)
  | t :: rest, name =>
    match innerFactoryLookup t name with
    | some d => .ok d
    | none => inner_from_xml rest name

/-- `XMLObject.parse_from_xml`, parametrized over the per-class
`standard_tag` and `from_xml` (the external `xml.etree` parser is a
boundary: its outcome — a root element, or a `ParseError` on malformed
XML — is an input here).  The expected tag defaults to the standard
tag; a root whose tag differs raises a `ParseError`. -/
def parse_from_xml {α : Type} (fromXml : Element → Except PyError α)
    (standardTag : QName) (tag : Option QName)
    (parseResult : Except PyError Element) : Except PyError α := do
  let t := tag.getD standardTag
  match parseResult with
  | .error e => .error e
  | .ok root =>
    if root.tag ≠ t then
      .error (.parseError ("expected " ++ qnameText t ++ " element, got "
        ++ qnameText root.tag))
    else
      fromXml root

def linkA : AtomLink := { href := some "a", rel := some "self" }

def linkB : AtomLink := { href := some "b", rel := some "alt" }

def linkC : AtomLink := { href := some "c", rel := some "self" }

def linksABC : List AtomLink := [linkA, linkB, linkC]

/-- C7: on links [(a,self),(b,alt),(c,self)], `get_links "self"` returns
the hrefs a and c in original order; `replace_link "self" "z"` leaves
the survivors first and appends exactly one new (z,self) link last; and
`remove_links "alt"` keeps (a,self) and (c,self) in order. -/
theorem link_helper_scenario :
    get_links linksABC (some "self") = [some "a", some "c"] ∧
    replace_link linksABC (some "self") (some "z") =
      [linkB, { href := some "z", rel := some "self" }] ∧
    remove_links linksABC (some "alt") = [linkA, linkC] := by
  decide

/-- The behaviour C10 ascribes to both helpers, in the words of the claim:
the href of the first link whose rel field equals the argument, and
`None` when no link matches. -/
def firstLinkHrefSpec (links : List AtomLink) (rel : Option String) : Option String :=
  match links.find? (fun l => l.rel == rel) with
  | some l => l.href
  | none => none

/-- C10: `get_link` and `get_first_link` are extensionally equal — both
return the href of the first link whose rel equals the argument and
`None` when no link matches. -/
theorem get_link_eq_get_first_link (links : List AtomLink) (rel : Option String) :
    get_link links rel = get_first_link links rel ∧
    get_link links rel = firstLinkHrefSpec links rel := by
  induction links with
  | nil => exact ⟨rfl, rfl⟩
  | cons l ls ih =>
    by_cases hc : l.rel = rel
    · simp [get_link, get_first_link, firstLinkHrefSpec, List.find?_cons, hc]
    · have hb : (l.rel == rel) = false := by
        simp [hc]
      simp [get_link, get_first_link, firstLinkHrefSpec, List.find?_cons, hc, hb]
      exact ⟨ih.1, by simpa [firstLinkHrefSpec] using ih.2⟩

/-- C5: when a name appears in no inner dispatch table along the
ancestry chain, `inner_from_xml` exhausts the chain and raises the
key-not-found error, an error class distinct from the parse error and
from the incomplete-object (validation) error. -/
theorem inner_dispatch_exhausted_raises (tables : List InnerFactory) (name : String)
    (h : ∀ t ∈ tables, innerFactoryLookup t name = none) :
    inner_from_xml tables name = .error (.keyError name) ∧
    (∀ m, (PyError.keyError name) ≠ PyError.parseError m) ∧
    (∀ m, (PyError.keyError name) ≠ PyError.incompleteObjectError m) := by
  have main : ∀ (ts : List InnerFactory),
      (∀ t ∈ ts, innerFactoryLookup t name = none) →
      inner_from_xml ts name = .error (.keyError name) := by
    intro ts
    induction ts with
    | nil => intro _; rfl
    | cons t rest ih =>
      intro hall
      have ht := hall t (by simp)
      simp only [inner_from_xml, ht]
      exact ih (fun t2 ht2 => hall t2 (by simp [ht2]))
  exact ⟨main tables h, fun m hm => PyError.noConfusion hm,
         fun m hm => PyError.noConfusion hm⟩

/-- Witness for C5: the AppFeed ancestry chain holds no entry for the
name "comments", so dispatch raises the key error for it. -/
theorem inner_dispatch_exhausted_raises_witness :
    inner_from_xml appFeedMRO "comments" = .error (.keyError "comments") ∧
    (∀ m, (PyError.keyError "comments") ≠ PyError.parseError m) ∧
    (∀ m, (PyError.keyError "comments") ≠ PyError.incompleteObjectError m) :=
  inner_dispatch_exhausted_raises appFeedMRO "comments" (by decide)

/-- C4: the ancestry chain is searched most-derived first and the first
table containing the name wins; concretely, AppFeed overrides the
"entry" entry inherited from AtomFeed, so dispatch on AppFeed resolves
"entry" to AppEntry.from_xml while dispatch on AtomFeed resolves it to
AtomEntry.from_xml, two distinct decoders. -/
theorem inner_dispatch_override_precedence (t : InnerFactory)
    (rest : List InnerFactory) (name : String) (d : DecoderId)
    (h : innerFactoryLookup t name = some d) :
    inner_from_xml (t :: rest) name = .ok d ∧
    inner_from_xml appFeedMRO "entry" = .ok .appEntry ∧
    inner_from_xml atomFeedMRO "entry" = .ok .atomEntry ∧
    DecoderId.appEntry ≠ DecoderId.atomEntry := by
  refine ⟨?_, rfl, rfl, by decide⟩
  simp only [inner_from_xml, h]

/-- Witness for C4: dispatching "entry" on the AppFeed chain invokes
AppEntry.from_xml, not the AtomEntry.from_xml of AtomFeed. -/
theorem inner_dispatch_override_precedence_witness :
    inner_from_xml (appFeedInnerFactory :: atomFeedMRO) "entry" = .ok .appEntry ∧
    inner_from_xml appFeedMRO "entry" = .ok .appEntry ∧
    inner_from_xml atomFeedMRO "entry" = .ok .atomEntry ∧
    DecoderId.appEntry ≠ DecoderId.atomEntry :=
  inner_dispatch_override_precedence appFeedInnerFactory atomFeedMRO "entry"
    .appEntry (by decide)

/-- C9: `parse_from_xml` propagates the `ParseError` of the parser on
malformed XML, raises a `ParseError` itself when the tag of the parsed root
differs from the expected qualified name (the supplied tag, or the
standard tag when none is supplied), and in both failure cases produces
no decoded result. -/
theorem parse_from_xml_failure_modes {α : Type}
    (fromXml : Element → Except PyError α) (standardTag : QName)
    (tag : Option QName) (m : String) (root : Element)
    (hmismatch : root.tag ≠ tag.getD standardTag) :
    parse_from_xml fromXml standardTag tag (.error (.parseError m)) =
      .error (.parseError m) ∧
    (∃ msg, parse_from_xml fromXml standardTag tag (.ok root) =
      .error (.parseError msg)) ∧
    (∀ a, parse_from_xml fromXml standardTag tag (.ok root) ≠ .ok a) := by
  refine ⟨rfl, ?_, ?_⟩
  · refine ⟨"expected " ++ qnameText (tag.getD standardTag) ++ " element, got "
      ++ qnameText root.tag, ?_⟩
    simp [parse_from_xml, hmismatch]
  · intro a
    simp [parse_from_xml, hmismatch]

/-- Witness for C9: expecting an atom:feed root (the standard tag, with
no explicit tag supplied) while the root of the document is an atom:entry
fails, as does a malformed-XML parse outcome. -/
theorem parse_from_xml_failure_modes_witness :
    parse_from_xml (fun e => Except.ok (atomLinkFromXml e)) ⟨atom_ns, "feed"⟩ none
        (.error (.parseError "syntax error")) = .error (.parseError "syntax error") ∧
    (∃ msg, parse_from_xml (fun e => Except.ok (atomLinkFromXml e)) ⟨atom_ns, "feed"⟩
        none (.ok (.mk ⟨atom_ns, "entry"⟩ [] [] none none)) =
      .error (.parseError msg)) ∧
    (∀ a, parse_from_xml (fun e => Except.ok (atomLinkFromXml e)) ⟨atom_ns, "feed"⟩
        none (.ok (.mk ⟨atom_ns, "entry"⟩ [] [] none none)) ≠ .ok a) :=
  parse_from_xml_failure_modes (fun e => Except.ok (atomLinkFromXml e))
    ⟨atom_ns, "feed"⟩ none "syntax error" (.mk ⟨atom_ns, "entry"⟩ [] [] none none)
    (by decide)

/-- The in-scope namespace declarations of a document, mapping a prefix
to its URI. -/
def lookupNsBinding (bindings : List (String × String)) (pre : String) : Option String :=
  (bindings.find? (fun b => b.fst == pre)).map (fun b => b.snd)

/-- Modelled from the spec: the prefix resolution performed by the
external XML parser at the Element Tree Adapter boundary — a raw
prefixed tag resolves to the namespace-qualified (URI, local name) pair
through the in-scope bindings, and the prefix itself is discarded. -/
def resolveTag (bindings : List (String × String)) (pre localName : String) :
    Option QName :=
  (lookupNsBinding bindings pre).map (fun uri => ⟨uri, localName⟩)

/-- C8: two qualified names are equal iff namespace URI and local name
both match; two raw tags differing only in prefix, with both prefixes
bound to the same URI, resolve to the same qualified name, and a decode
that matches child tags (`AtomPerson.from_xml`) therefore dispatches
elements built from either prefix identically. -/
theorem qname_equality_ignores_prefixes (bindings : List (String × String))
    (p q localName uri : String)
    (hp : lookupNsBinding bindings p = some uri)
    (hq : lookupNsBinding bindings q = some uri) :
    (∀ a b : QName, a = b ↔ a.ns = b.ns ∧ a.name = b.name) ∧
    resolveTag bindings p localName = resolveTag bindings q localName ∧
    (∀ (attrs : List (QName × String)) (cs : List Element)
       (tx tl : Option String) (outer : Element),
      atomPersonFromXml (outer.withChildren
        [.mk ((resolveTag bindings p localName).getD ⟨"", ""⟩) attrs cs tx tl]) =
      atomPersonFromXml (outer.withChildren
        [.mk ((resolveTag bindings q localName).getD ⟨"", ""⟩) attrs cs tx tl])) := by
  have hres : resolveTag bindings p localName = resolveTag bindings q localName := by
    simp [resolveTag, hp, hq]
  refine ⟨?_, hres, ?_⟩
  · intro a b
    constructor
    · intro h; subst h; exact ⟨rfl, rfl⟩
    · intro ⟨h1, h2⟩
      cases a; cases b
      simp_all
  · intro attrs cs tx tl outer
    rw [hres]

/-- Witness for C8: with both the prefixes "atom" and "ns0" bound to the
Atom namespace URI, a child tag written with either prefix resolves to
the same qualified name and decodes identically. -/
theorem qname_equality_ignores_prefixes_witness :
    (∀ a b : QName, a = b ↔ a.ns = b.ns ∧ a.name = b.name) ∧
    resolveTag [("atom", atom_ns), ("ns0", atom_ns)] "atom" "name" =
      resolveTag [("atom", atom_ns), ("ns0", atom_ns)] "ns0" "name" ∧
    (∀ (attrs : List (QName × String)) (cs : List Element)
       (tx tl : Option String) (outer : Element),
      atomPersonFromXml (outer.withChildren
        [.mk ((resolveTag [("atom", atom_ns), ("ns0", atom_ns)] "atom" "name").getD
          ⟨"", ""⟩) attrs cs tx tl]) =
      atomPersonFromXml (outer.withChildren
        [.mk ((resolveTag [("atom", atom_ns), ("ns0", atom_ns)] "ns0" "name").getD
          ⟨"", ""⟩) attrs cs tx tl])) :=
  qname_equality_ignores_prefixes [("atom", atom_ns), ("ns0", atom_ns)]
    "atom" "ns0" "name" atom_ns rfl rfl

def emptyTitleElem : Element := .mk ⟨atom_ns, "title"⟩ [] [] none none

def emptyUpdatedElem : Element := .mk ⟨atom_ns, "updated"⟩ [] [] none none

/-- C2 (refuting evaluation): decoding an element missing every optional
field is NOT tolerant — on an empty atom:title, `AtomText.from_xml`
flattens `element.text = None` and raises an `AttributeError`
(`None.strip()`), and on an empty atom:updated, `AtomDate.from_xml`
raises a `TypeError` (`re.match` on `None`) — contradicting the
never-raises claim. -/
theorem decode_raises_on_missing_text :
    atomTextFromXml emptyTitleElem =
      .error (.attributeError "NoneType object has no attribute strip") ∧
    atomDateFromXml emptyUpdatedElem =
      .error (.typeError "expected string or buffer") :=
  ⟨rfl, rfl⟩

def flatChild1 : Element := .mk (plainName "b") [] [] none none

def flatChild2 : Element := .mk (plainName "i") [] [] (some "y") none

def flatSourceElem : Element := .mk ⟨atom_ns, "title"⟩ [(plainName "type", "text")]
  [flatChild1, flatChild2] (some "  hi ") none

/-- Counterexample for C6: an element with `type="text"`, inline text
with leading whitespace and two child elements decodes to a string that
is NOT the plain concatenation of the direct text with the serialized
children — the source strips surrounding whitespace. -/
theorem text_flatten_not_plain_concatenation :
    (atomTextFromXml flatSourceElem).map AtomText.text =
      .ok (some (.str "hi <b /><i>y</i>")) ∧
    "hi <b /><i>y</i>" ≠
      "  hi " ++ serializeElement flatChild1 ++ serializeElement flatChild2 :=
  ⟨rfl, by decide⟩

/-- C6 (amended): decoding a text construct whose normalized type is
"text" or "html" from an element carrying direct text yields the single
string obtained by concatenating the direct text with the serialized
XML form of each child element in document order, with leading and
trailing whitespace stripped. -/
theorem text_flatten_concatenation_stripped (e : Element) (t ty : String)
    (hty : pyStrip (pyLower (attribGetD e.attrib (plainName "type") "text")) = ty)
    (hval : ty = "text" ∨ ty = "html")
    (htext : e.text = some t) :
    atomTextFromXml e =
      .ok
        { type := some ty
          text := some (.str (pyStrip (t ++ serializeChildren e.children)))
          base := atomCommonBase e
          lang := atomCommonLang e } := by
  have hcond : (decide (ty = "text") || decide (ty = "html")) = true := by
    rcases hval with h | h <;> simp [h]
  cases hch : e.children with
  | nil =>
    simp [atomTextFromXml, flatten_xml_content, hty, hcond, hch, htext,
      serializeChildren, String.append_empty, Except.bind, Bind.bind, Pure.pure,
      Except.pure]
  | cons c cs =>
    simp [atomTextFromXml, flatten_xml_content, hty, hcond, hch, htext,
      serializeChildren, Except.bind, Bind.bind, Pure.pure, Except.pure]

/-- Witness for C6 (amended): the concrete scenario of the spec — inline
text plus two children — evaluates to the stripped concatenation. -/
theorem text_flatten_concatenation_stripped_witness :
    atomTextFromXml flatSourceElem =
      .ok
        { type := some "text"
          text := some
            (.str (pyStrip ("  hi " ++ serializeChildren flatSourceElem.children)))
          base := atomCommonBase flatSourceElem
          lang := atomCommonLang flatSourceElem } :=
  text_flatten_concatenation_stripped flatSourceElem "  hi " "text" rfl
    (Or.inl rfl) rfl

def collectionElem : Element := .mk ⟨app_ns, "collection"⟩ [] [] none none

def feedRootElem : Element := .mk ⟨atom_ns, "feed"⟩ [] [] none none

def entryRootElem : Element := .mk ⟨atom_ns, "entry"⟩ [] [] none none

/-- C3 (refuting evaluation): `AppCollection.prepare_xml` does check its
required `href` and `title` first, before the parent runs and before
any attribute or child is written — but the required-field rule does
not hold for every type with vocabulary-required fields: an atom feed
or entry with id, title and updated all unset encodes without any
error, its element left untouched, although the feed docstring says the
mandatory-element conditions are enforced by `prepare_xml`. -/
theorem required_field_check_missing_for_feed_and_entry :
    appCollectionPrepareXml {} collectionElem =
      .error (.incompleteObjectError "href is required") ∧
    appCollectionPrepareXml { href := some "http://x/" } collectionElem =
      .error (.incompleteObjectError "title is required") ∧
    atomFeedPrepareXml {} feedRootElem = .ok feedRootElem ∧
    atomEntryPrepareXml {} entryRootElem = .ok entryRootElem :=
  ⟨rfl, rfl, rfl, rfl⟩

/-- A fully populated, valid atom date construct: base and lang set and
an aware timestamp, 2020-01-01T00:00:00 at offset -05:00. -/
def roundTripDate : AtomDate :=
  { datetime := some
      { year := 2020, month := 1, day := 1, hour := 0, minute := 0,
        second := 0, microsecond := 0, tz := some (.fixedOffset (-300)) }
    base := some "b", lang := some "en" }

/-- The node that decoding the encoded `roundTripDate` actually yields:
identical except that the offset sign has been dropped. -/
def roundTripDateDecoded : AtomDate :=
  { datetime := some
      { year := 2020, month := 1, day := 1, hour := 0, minute := 0,
        second := 0, microsecond := 0, tz := some (.fixedOffset 300) }
    base := some "b", lang := some "en" }

/-- C1 (refuting evaluation): encoding the fully populated
`roundTripDate` (prepare onto a fresh atom:updated element, as
`create_xml`/`create_root_xml` do) and decoding the result with
`AtomDate.from_xml` yields a node whose timezone offset is +05:00
instead of -05:00 — `TzInfoFixedOffset(int(offhour) * 60 + int(offmin))`
never consults the sign — so decode of encode is not the identity. -/
theorem atomdate_roundtrip_flips_offset_sign :
    (atomDatePrepareXml roundTripDate (.mk ⟨atom_ns, "updated"⟩ [] [] none none)).bind
      atomDateFromXml = .ok roundTripDateDecoded ∧
    roundTripDateDecoded ≠ roundTripDate :=
  ⟨rfl, by decide⟩
